import Mathlib

/-!
Verification of the `embed_file.py` binary-asset embedder.

The tool is a single linear transformation: validate the input path, derive
a symbol name from the input file's base name, then stream the bytes as a
hexadecimal literal table wrapped in a C++ header declaration.  The
definitions below are a shallow embedding of `src/embed_file.py`: each Lean
definition mirrors one piece of the Python source.  Filesystem effects
(existence check, `mkdir`, writing the output file) are modelled by an
explicit `World` state record.
-/

namespace EmbedFile

/-! ## Character facts

`Char.isLower`, `Char.isUpper` and `Char.isDigit` are ASCII-range tests on
the character's scalar value; the lemmas below restate them over `Char.toNat`
so that `omega` can reason about them. -/

theorem uint32_le_iff {a b : UInt32} : a ≤ b ↔ a.toNat ≤ b.toNat := Iff.rfl

theorem char_isLower_iff {c : Char} :
    c.isLower = true ↔ 97 ≤ c.toNat ∧ c.toNat ≤ 122 := by
  simp only [Char.isLower, ge_iff_le, Bool.and_eq_true, decide_eq_true_eq,
    uint32_le_iff]
  exact Iff.rfl

theorem char_isUpper_iff {c : Char} :
    c.isUpper = true ↔ 65 ≤ c.toNat ∧ c.toNat ≤ 90 := by
  simp only [Char.isUpper, ge_iff_le, Bool.and_eq_true, decide_eq_true_eq,
    uint32_le_iff]
  exact Iff.rfl

theorem char_isDigit_iff {c : Char} :
    c.isDigit = true ↔ 48 ≤ c.toNat ∧ c.toNat ≤ 57 := by
  simp only [Char.isDigit, ge_iff_le, Bool.and_eq_true, decide_eq_true_eq,
    uint32_le_iff]
  exact Iff.rfl

theorem toNat_ofNat_valid {m : Nat} (h : m.isValidChar) :
    (Char.ofNat m).toNat = m := by
  simp only [Char.ofNat]
  rw [dif_pos h]
  rfl

theorem lower_not_digit {c : Char} (h : c.isLower = true) :
    c.isDigit = false := by
  cases hd : c.isDigit
  · rfl
  · obtain ⟨a1, a2⟩ := char_isLower_iff.mp h
    obtain ⟨b1, b2⟩ := char_isDigit_iff.mp hd
    omega

theorem upper_not_digit {c : Char} (h : c.isUpper = true) :
    c.isDigit = false := by
  cases hd : c.isDigit
  · rfl
  · obtain ⟨a1, a2⟩ := char_isUpper_iff.mp h
    obtain ⟨b1, b2⟩ := char_isDigit_iff.mp hd
    omega

theorem toUpper_toNat_of_lower {c : Char} (h : c.isLower = true) :
    c.toUpper.toNat = c.toNat - 32 := by
  obtain ⟨h1, h2⟩ := char_isLower_iff.mp h
  simp only [Char.toUpper]
  rw [if_pos ⟨h1, h2⟩]
  exact toNat_ofNat_valid (Or.inl (by omega))

theorem toUpper_isUpper_of_lower {c : Char} (h : c.isLower = true) :
    c.toUpper.isUpper = true := by
  obtain ⟨h1, h2⟩ := char_isLower_iff.mp h
  have ht := toUpper_toNat_of_lower h
  exact char_isUpper_iff.mpr (by omega)

theorem toUpper_not_digit_of_lower {c : Char} (h : c.isLower = true) :
    c.toUpper.isDigit = false := by
  obtain ⟨h1, h2⟩ := char_isLower_iff.mp h
  have ht := toUpper_toNat_of_lower h
  cases hd : c.toUpper.isDigit
  · rfl
  · obtain ⟨b1, b2⟩ := char_isDigit_iff.mp hd
    omega

/-! ## Identifier deriver (`_convert_to_var_name`) -/

/-- One step of the Python loop in `_convert_to_var_name`, accumulator
style: given the remaining characters, the accumulated `var_name` and the
`next_upper` flag, produce the final accumulated name.  Mirrors lines
16–29 of `embed_file.py`. -/
def convertGo : List Char → List Char → Bool → List Char
  | [], acc, _ => acc
  | c :: cs, acc, next_upper =>
    if c = '_' then
      convertGo cs acc true
    else if c.isLower then
      if next_upper then convertGo cs (acc ++ [c.toUpper]) false
      else convertGo cs (acc ++ [c]) false
    else if c.isUpper then
      convertGo cs (acc ++ [c]) false
    else
      convertGo cs (acc ++ ['_']) next_upper

/-- Embedding of `_convert_to_var_name`: derive the symbol name from the
input file's base name.  The Python function starts with `var_name = ''`
and `next_upper = True`. -/
def convert_to_var_name (file_name : String) : String :=
  ⟨convertGo file_name.data [] true⟩

/-- Modelled from the spec (§4.1), for the refinement claim C2: the
per-character rule.  Underscore emits nothing and sets the flag; a
lowercase letter emits its uppercase form when the flag is set, itself
otherwise, and clears the flag either way; an uppercase letter is emitted
unchanged and clears the flag; any other character emits a literal
underscore and leaves the flag unchanged. -/
def specStep (c : Char) (flag : Bool) : List Char × Bool :=
  if c = '_' then ([], true)
  else if c.isLower then
    ((if flag then [c.toUpper] else [c]), false)
  else if c.isUpper then ([c], false)
  else (['_'], flag)

/-- Modelled from the spec (§4.1): fold `specStep` left-to-right. -/
def specConvertAux : List Char → Bool → List Char
  | [], _ => []
  | c :: cs, flag =>
    (specStep c flag).1 ++ specConvertAux cs (specStep c flag).2

/-- Modelled from the spec (§4.1): the whole transformation, with the
"capitalize next" flag initialized to `true`. -/
def specConvert (s : String) : String :=
  ⟨specConvertAux s.data true⟩

theorem convertGo_eq_acc_append (cs : List Char) :
    ∀ (acc : List Char) (flag : Bool),
      convertGo cs acc flag = acc ++ specConvertAux cs flag := by
  induction cs with
  | nil =>
    intro acc flag
    simp [convertGo, specConvertAux]
  | cons c cs ih =>
    intro acc flag
    by_cases h1 : c = '_'
    · simp [convertGo, specConvertAux, specStep, h1, ih]
    · by_cases h2 : c.isLower
      · cases flag <;>
          simp [convertGo, specConvertAux, specStep, h1, h2, ih]
      · by_cases h3 : c.isUpper <;>
          simp [convertGo, specConvertAux, specStep, h1, h2, h3, ih]

/-- Claim C2: for every filename string, `_convert_to_var_name` produces
exactly the string obtained by the spec's left-to-right transformation
with the single "capitalize next" flag initialized to true.  Both sides
are total Lean functions, so the map is pure and deterministic. -/
theorem convert_matches_spec (s : String) :
    convert_to_var_name s = specConvert s := by
  unfold convert_to_var_name specConvert
  rw [convertGo_eq_acc_append]
  rfl

/-- Claim C3, counterexample: the deriver does not map `embed_icons.bin`
to `EmbedIcons_Bin`.  The dot emits an underscore but leaves the
"capitalize next" flag cleared, so the `b` after the dot stays
lowercase. -/
theorem convert_embed_icons_not_claimed :
    convert_to_var_name "embed_icons.bin" ≠ "EmbedIcons_Bin" := by
  decide

/-- Claim C3, amended: the deriver maps `embed_icons.bin` to
`EmbedIcons_bin` and `My-File.DAT` to `My_File_DAT`.  The hyphen and the
dot each emit a literal underscore and leave the flag unchanged, so no
capitalization is forced after them. -/
theorem convert_examples :
    convert_to_var_name "embed_icons.bin" = "EmbedIcons_bin" ∧
    convert_to_var_name "My-File.DAT" = "My_File_DAT" := by
  exact ⟨by decide, by decide⟩

theorem specStep_chars (c : Char) (flag : Bool) :
    ((specStep c flag).1).all
      (fun d => (d.isAlpha || d == '_') && !d.isDigit) = true := by
  unfold specStep
  by_cases h1 : c = '_'
  · simp [h1]
  · by_cases h2 : c.isLower
    · cases flag with
      | false =>
        simp [h1, h2, Char.isAlpha, lower_not_digit h2]
      | true =>
        simp [h1, h2, Char.isAlpha, toUpper_isUpper_of_lower h2,
          toUpper_not_digit_of_lower h2]
    · by_cases h3 : c.isUpper
      · simp [h1, h2, h3, Char.isAlpha, upper_not_digit h3]
      · simp [h1, h2, h3]

theorem specConvertAux_alphabet (cs : List Char) (flag : Bool) :
    (specConvertAux cs flag).all
      (fun d => (d.isAlpha || d == '_') && !d.isDigit) = true := by
  induction cs generalizing flag with
  | nil => rfl
  | cons c cs ih =>
    rw [specConvertAux, List.all_append, specStep_chars c flag, ih]
    rfl

/-- Claim C10: every character of the derived symbol name is an ASCII
letter or an underscore, and in particular no character is a digit:
digits, like every other non-letter non-underscore character, are
replaced by a literal underscore. -/
theorem symbol_alphabet (s : String) :
    (convert_to_var_name s).data.all
      (fun d => (d.isAlpha || d == '_') && !d.isDigit) = true := by
  show (convertGo s.data [] true).all _ = true
  rw [convertGo_eq_acc_append, List.nil_append]
  exact specConvertAux_alphabet _ _

/-! ## Hexadecimal formatting (`'0x{:02x}'.format(byte[0])`)

In the source the byte is formatted with Python's `02x` conversion: two
lowercase hexadecimal digits (a byte is below 256, so exactly two digits)
prefixed by `0x`. -/

/-- One lowercase hexadecimal digit, for `n < 16`. -/
def hexDigit (n : Nat) : Char :=
  if n < 10 then Char.ofNat (48 + n) else Char.ofNat (87 + n)

/-- Embedding of `'0x{:02x}'.format(byte[0])` for a byte value. -/
def hexByte (b : Fin 256) : String :=
  ⟨['0', 'x', hexDigit (b.val / 16), hexDigit (b.val % 16)]⟩

/-- Does `s` consist of `0x` followed by exactly two lowercase hexadecimal
digits whose value is `v`? -/
def twoLowerHexLit (s : String) (v : Nat) : Bool :=
  match s.data with
  | ['0', 'x', d1, d2] =>
    (d1.isDigit || (('a' ≤ d1) && (d1 ≤ 'f'))) &&
    (d2.isDigit || (('a' ≤ d2) && (d2 ≤ 'f'))) &&
    ((if d1.isDigit then d1.toNat - 48 else d1.toNat - 87) * 16 +
      (if d2.isDigit then d2.toNat - 48 else d2.toNat - 87) == v)
  | _ => false

set_option maxRecDepth 8192 in
theorem hexByte_twoLowerHex :
    ∀ b : Fin 256, twoLowerHexLit (hexByte b) b.val = true := by
  decide

/-! ## The output writer (`run`, lines 50–71) -/

/-- `tab_str = ' ' * tab_width` with `tab_width = 4`. -/
def tab_str : String := "    "

/-- `col_width = 10`. -/
def col_width : Nat := 10

/-- The text written for one byte, mirroring the loop body at lines 61–69:
`byte_num` is the 1-based running count and `input_size` the byte length
from the file's metadata. -/
def byteChunk (input_size byte_num : Nat) (b : Fin 256) : String :=
  if byte_num % col_width = 0 then hexByte b ++ ",\n" ++ tab_str
  else if byte_num = input_size then hexByte b ++ "\n"
  else hexByte b ++ ", "

/-- The per-byte chunks emitted by the `while` loop, starting from running
count `byte_num` (the loop increments before formatting, so the first
chunk uses `byte_num + 1`). -/
def bodyChunks (input_size : Nat) : Nat → List (Fin 256) → List String
  | _, [] => []
  | byte_num, b :: bs =>
    byteChunk input_size (byte_num + 1) b ::
      bodyChunks input_size (byte_num + 1) bs

/-- The whole literal table written by the loop. -/
def body (input_size : Nat) (bytes : List (Fin 256)) : String :=
  String.join (bodyChunks input_size 0 bytes)

/-- The full text written to the output file (lines 57–71): the three
header writes, then the loop output, then the closing brace. -/
def generate (input_size : Nat) (var_name : String) (bytes : List (Fin 256)) :
    String :=
  "#pragma once\n" ++
    ("#include <array>\n#include <cstdint>\n\n" ++
      (("constexpr std::array<uint8_t, " ++
          (toString input_size ++
            ("> k" ++ (var_name ++ (" = \x7b\n" ++ tab_str))))) ++
        (body input_size bytes ++ "\x7d;\n")))

theorem bodyChunks_length (n : Nat) (bytes : List (Fin 256)) :
    ∀ k, (bodyChunks n k bytes).length = bytes.length := by
  induction bytes with
  | nil => intro k; rfl
  | cons b bs ih =>
    intro k
    simp [bodyChunks, ih]

theorem bodyChunks_get (n : Nat) (bytes : List (Fin 256)) :
    ∀ k i, (bodyChunks n k bytes)[i]? =
      (bytes[i]?).map (fun b => byteChunk n (k + i + 1) b) := by
  induction bytes with
  | nil =>
    intro k i
    simp [bodyChunks]
  | cons b bs ih =>
    intro k i
    cases i with
    | zero => simp [bodyChunks]
    | succ j =>
      simp only [bodyChunks, List.getElem?_cons_succ, ih (k + 1) j]
      have harith : k + 1 + j + 1 = k + (j + 1) + 1 := by omega
      rw [harith]

theorem byteChunk_starts_with_hex (n k : Nat) (b : Fin 256) :
    ∃ s, byteChunk n k b = hexByte b ++ s := by
  unfold byteChunk
  split
  · exact ⟨",\n" ++ tab_str, String.append_assoc _ _ _⟩
  · split
    · exact ⟨"\n", rfl⟩
    · exact ⟨", ", rfl⟩

/-- Claim C1: for an input file whose bytes are `bytes` (so the metadata
size is `bytes.length`), the loop emits exactly one chunk per byte, the
`i`-th chunk begins with the `i`-th byte rendered as `0x` plus two
lowercase hexadecimal digits, and the generated text declares the array
with exactly `bytes.length` elements. -/
theorem output_array (bytes : List (Fin 256)) (name : String) :
    (bodyChunks bytes.length 0 bytes).length = bytes.length ∧
    (∀ i : Fin bytes.length, ∃ suf,
      (bodyChunks bytes.length 0 bytes)[i.val]? =
        some (hexByte (bytes.get i) ++ suf)) ∧
    (∀ b : Fin 256, twoLowerHexLit (hexByte b) b.val = true) ∧
    generate bytes.length name bytes =
      "#pragma once\n" ++
        ("#include <array>\n#include <cstdint>\n\n" ++
          (("constexpr std::array<uint8_t, " ++
              (toString bytes.length ++
                ("> k" ++ (name ++ (" = \x7b\n" ++ "    "))))) ++
            (String.join (bodyChunks bytes.length 0 bytes) ++ "\x7d;\n"))) := by
  refine ⟨bodyChunks_length _ _ _, ?_, hexByte_twoLowerHex, rfl⟩
  intro i
  rw [bodyChunks_get]
  rw [List.getElem?_eq_getElem i.isLt]
  obtain ⟨s, hs⟩ := byteChunk_starts_with_hex bytes.length (0 + i.val + 1)
    (bytes.get i)
  simp only [Nat.zero_add, List.get_eq_getElem] at hs
  exact ⟨s, by simp [hs]⟩

/-- Claim C5: the per-byte formatting rule, with its branch precedence:
a running count that is a multiple of the column width 10 gets comma,
newline and one indentation unit; otherwise the final byte gets a bare
newline; otherwise comma and a single space.  The last three conjuncts
instantiate the rule for a 25-byte file at positions 10, 20 and 25. -/
theorem per_byte_format (N k : Nat) (b : Fin 256) :
    (k % 10 = 0 → byteChunk N k b = hexByte b ++ ",\n" ++ tab_str) ∧
    (k % 10 ≠ 0 → k = N → byteChunk N k b = hexByte b ++ "\n") ∧
    (k % 10 ≠ 0 → k ≠ N → byteChunk N k b = hexByte b ++ ", ") ∧
    byteChunk 25 10 b = hexByte b ++ ",\n" ++ tab_str ∧
    byteChunk 25 20 b = hexByte b ++ ",\n" ++ tab_str ∧
    byteChunk 25 25 b = hexByte b ++ "\n" := by
  refine ⟨?_, ?_, ?_, ?_, ?_, ?_⟩
  · intro h1
    simp [byteChunk, col_width, h1]
  · intro h1 h2
    subst h2
    simp [byteChunk, col_width, h1]
  · intro h1 h2
    simp [byteChunk, col_width, h1, h2]
  · simp [byteChunk, col_width]
  · simp [byteChunk, col_width]
  · simp [byteChunk, col_width]

theorem per_byte_format_witness :
    byteChunk 7 7 (⟨171, by decide⟩ : Fin 256) =
      hexByte (⟨171, by decide⟩ : Fin 256) ++ "\n" :=
  (per_byte_format 7 7 ⟨171, by decide⟩).2.1 (by decide) rfl

/-- Claim C6, counterexample: for an empty input file the generated text
is not the spec's claimed form with a second newline between the
indentation unit and the closing brace. -/
theorem empty_file_output_not_claimed :
    generate 0 "Test" [] ≠
      "#pragma once\n#include <array>\n#include <cstdint>\n\nconstexpr std::array<uint8_t, 0> kTest = \x7b\n    \n\x7d;\n" := by
  decide

/-- Claim C6, amended: for an empty input file the declaration reads
`constexpr std::array<uint8_t, 0> k<SymbolName> = \x7b` followed by a
newline and one 4-space indentation unit, then immediately `\x7d;` and a
trailing newline — the byte loop emits nothing and no second newline is
written before the closing brace. -/
theorem empty_file_output (name : String) :
    generate 0 name [] =
      "#pragma once\n#include <array>\n#include <cstdint>\n\nconstexpr std::array<uint8_t, 0> k" ++
        (name ++ " = \x7b\n    \x7d;\n") := by
  have h1 : ("#pragma once\n#include <array>\n#include <cstdint>\n\nconstexpr std::array<uint8_t, 0> k" : String) =
      "#pragma once\n" ++
        ("#include <array>\n#include <cstdint>\n\n" ++
          ("constexpr std::array<uint8_t, " ++ (toString (0 : Nat) ++ "> k"))) := by
    decide
  have h2 : (" = \x7b\n    \x7d;\n" : String) =
      " = \x7b\n" ++ ("    " ++ (body 0 [] ++ "\x7d;\n")) := by
    decide
  rw [h1, h2]
  simp only [generate, tab_str, String.append_assoc]

/-- Claim C7: one invocation is modelled as a state transformation on a
filesystem `World`; re-running the tool on the unchanged input/output
pair reproduces the same output bytes (and the same final state), since
the generated text depends only on the input file. -/
structure World where
  inputExists : Bool
  inputIsFile : Bool
  inputBytes : List (Fin 256)
  inputName : String
  resolvedInput : String
  outParent : String
  outGrandparent : String
  dirs : List String
  outputContent : Option String

/-- Modelled from `pathlib` semantics: `Path.mkdir(exist_ok=True)` with no
`parents=True` — succeed without change when the directory exists, create
exactly that one directory when its own parent exists, and raise
otherwise. -/
def mkdirExistOk (dir parentDir : String) (dirs : List String) :
    Option (List String) :=
  if dir ∈ dirs then some dirs
  else if parentDir ∈ dirs then some (dir :: dirs)
  else none

/-- The observable result of one invocation: the final filesystem state,
the process exit code, what was printed on standard error, and whether an
unhandled exception was raised. -/
structure RunResult where
  world : World
  exitCode : Nat
  stderr : Option String
  raised : Bool

/-- Embedding of `run()` (lines 33–71): validate the input path, print the
diagnostic and return 1 on failure; otherwise make the output parent
directory, derive the symbol name and write the generated text.  The
metadata size `stat().st_size` equals the length of the file's bytes (the
tool is single-threaded and nothing mutates the input during a run). -/
def run (w : World) : RunResult :=
  if !w.inputExists || !w.inputIsFile then
    { world := w, exitCode := 1,
      stderr := some (w.resolvedInput ++ " is not a valid input file"),
      raised := false }
  else
    match mkdirExistOk w.outParent w.outGrandparent w.dirs with
    | none => { world := w, exitCode := 1, stderr := none, raised := true }
    | some dirs2 =>
      let content := generate w.inputBytes.length
        (convert_to_var_name w.inputName) w.inputBytes
      { world := { w with dirs := dirs2, outputContent := some content },
        exitCode := 0, stderr := none, raised := false }

/-- Claim C4: when the input path does not exist or is not a regular
file, the process exits with status 1, prints a diagnostic containing the
resolved absolute path on standard error, and leaves the filesystem
untouched: no output file is written and no directory is created. -/
theorem invalid_input (w : World)
    (h : w.inputExists = false ∨ w.inputIsFile = false) :
    (run w).exitCode = 1 ∧
    (run w).stderr = some (w.resolvedInput ++ " is not a valid input file") ∧
    (run w).raised = false ∧
    (run w).world = w := by
  rcases h with h | h <;> simp [run, h]

/-- A concrete world whose input path does not exist. -/
def missingInputWorld : World :=
  { inputExists := false, inputIsFile := false, inputBytes := [],
    inputName := "a.bin", resolvedInput := "/abs/a.bin",
    outParent := "newdir", outGrandparent := ".", dirs := ["."],
    outputContent := none }

theorem invalid_input_witness :
    (run missingInputWorld).exitCode = 1 ∧
    (run missingInputWorld).stderr =
      some ("/abs/a.bin" ++ " is not a valid input file") ∧
    (run missingInputWorld).raised = false ∧
    (run missingInputWorld).world = missingInputWorld :=
  invalid_input missingInputWorld (Or.inl rfl)

/-- Claim C7: running the tool twice on the same input/output pair with
the input unchanged produces byte-identical output files — indeed the
second run reproduces the first run's entire final state. -/
theorem run_idempotent (w : World) :
    (run (run w).world).world.outputContent = (run w).world.outputContent ∧
    (run (run w).world).world = (run w).world := by
  have key : (run (run w).world).world = (run w).world := by
    by_cases hE : w.inputExists
    · by_cases hF : w.inputIsFile
      · by_cases h1 : w.outParent ∈ w.dirs
        · simp [run, mkdirExistOk, hE, hF, h1]
        · by_cases h2 : w.outGrandparent ∈ w.dirs
          · simp [run, mkdirExistOk, hE, hF, h1, h2]
          · simp [run, mkdirExistOk, hE, hF, h1, h2]
      · simp [run, hE, hF]
    · simp [run, hE]
  exact ⟨by rw [key], key⟩

/-- Claim C8: every successful run's output file begins with exactly the
pragma line, the two include lines, a blank line, and the declaration
header followed by a newline and one 4-space indentation unit, with these
exact token spellings. -/
theorem header_prologue (input_size : Nat) (name : String)
    (bytes : List (Fin 256)) :
    ∃ rest, generate input_size name bytes =
      "#pragma once\n#include <array>\n#include <cstdint>\n\nconstexpr std::array<uint8_t, " ++
        (toString input_size ++
          ("> k" ++ (name ++ (" = \x7b\n    " ++ rest)))) := by
  refine ⟨body input_size bytes ++ "\x7d;\n", ?_⟩
  have h1 : ("#pragma once\n#include <array>\n#include <cstdint>\n\nconstexpr std::array<uint8_t, " : String) =
      "#pragma once\n" ++
        ("#include <array>\n#include <cstdint>\n\n" ++
          "constexpr std::array<uint8_t, ") := by
    decide
  have h2 : (" = \x7b\n    " : String) = " = \x7b\n" ++ "    " := by
    decide
  rw [h1, h2]
  simp only [generate, tab_str, String.append_assoc]

/-- Claim C9: with a valid input, when the output path's immediate parent
directory is missing but its own parent exists, the run creates exactly
that one directory and writes the output file; when the parent directory
already exists, the run does not fail and writes the output file with no
directory created. -/
theorem mkdir_parent (w : World) (hE : w.inputExists = true)
    (hF : w.inputIsFile = true) :
    (w.outParent ∉ w.dirs → w.outGrandparent ∈ w.dirs →
      (run w).raised = false ∧ (run w).exitCode = 0 ∧
      (run w).world.dirs = w.outParent :: w.dirs ∧
      (run w).world.outputContent = some (generate w.inputBytes.length
        (convert_to_var_name w.inputName) w.inputBytes)) ∧
    (w.outParent ∈ w.dirs →
      (run w).raised = false ∧ (run w).exitCode = 0 ∧
      (run w).world.dirs = w.dirs ∧
      (run w).world.outputContent = some (generate w.inputBytes.length
        (convert_to_var_name w.inputName) w.inputBytes)) := by
  constructor
  · intro h1 h2
    simp [run, mkdirExistOk, hE, hF, h1, h2]
  · intro h1
    simp [run, mkdirExistOk, hE, hF, h1]

/-- A concrete world with a valid one-byte input and a missing output
parent directory whose own parent exists. -/
def missingParentWorld : World :=
  { inputExists := true, inputIsFile := true,
    inputBytes := [(⟨7, by decide⟩ : Fin 256)],
    inputName := "a_b.bin", resolvedInput := "/x/a_b.bin",
    outParent := "newdir", outGrandparent := ".", dirs := ["."],
    outputContent := none }

theorem mkdir_parent_witness :
    (run missingParentWorld).raised = false ∧
    (run missingParentWorld).exitCode = 0 ∧
    (run missingParentWorld).world.dirs = "newdir" :: ["."] ∧
    (run missingParentWorld).world.outputContent =
      some (generate 1 (convert_to_var_name "a_b.bin")
        [(⟨7, by decide⟩ : Fin 256)]) :=
  (mkdir_parent missingParentWorld rfl rfl).1 (by decide) (by decide)

end EmbedFile
